import Mathlib

/-!
Verification of the attachment/gallery reconciliation and insertion subsystem
of the tip-tap-element rich-text editor extension.

The embedding follows the source file that defines the `attachment-figure`,
`attachment-gallery`, `attachment-image` and `attachment-figcaption` tiptap
node types, their `renderHTML` / `addAttributes` serialization and parsing,
the `handleGallery` / `handleCaptions` reconciliation handlers run from the
gallery plugin's `appendTransaction`, the `setAttachment` insertion command,
and the dimension write-back in `addNodeView`.

ProseMirror documents are modelled as ordered trees; positions use the
standard ProseMirror token counting (a non-leaf node contributes an opening
and a closing token around its content, a text node contributes one token
per character, a leaf node contributes a single token).
-/

/-- Attribute record of an `attachment-figure` node, exactly the fields and
defaults declared in the extension's `addAttributes`. -/
structure FigureAttrs where
  attachmentId : Option String := none
  caption : String := ""
  progress : Int := 100
  sgid : String := ""
  src : String := ""
  height : String := ""
  width : String := ""
  contentType : String := ""
  fileName : String := ""
  fileSize : String := ""
  content : String := ""
  url : String := ""
  previewable : Bool := false
  deriving DecidableEq, Repr

/-- Document tree node.  `text` and `image` are leaves; the remaining
constructors are element nodes holding ordered children.  `other` stands for
any further block node type of the editor schema (heading, blockquote, ...),
which the subsystem under verification never creates itself. -/
inductive PMNode where
  | text (s : String)
  | image (src : String)
  | paragraph (cs : List PMNode)
  | figure (attrs : FigureAttrs) (cs : List PMNode)
  | gallery (cs : List PMNode)
  | figcaption (cs : List PMNode)
  | other (name : String) (cs : List PMNode)

/-- Children of a node (empty for leaves). -/
def children : PMNode → List PMNode
  | .text _ => []
  | .image _ => []
  | .paragraph cs => cs
  | .figure _ cs => cs
  | .gallery cs => cs
  | .figcaption cs => cs
  | .other _ cs => cs

/-- Same node kind and attributes, with the given child list. -/
def withChildren : PMNode → List PMNode → PMNode
  | .text s, _ => .text s
  | .image s, _ => .image s
  | .paragraph _, cs => .paragraph cs
  | .figure a _, cs => .figure a cs
  | .gallery _, cs => .gallery cs
  | .figcaption _, cs => .figcaption cs
  | .other nm _, cs => .other nm cs

def isTextNode : PMNode → Bool
  | .text _ => true
  | _ => false

def isGalleryNode : PMNode → Bool
  | .gallery _ => true
  | _ => false

def isFigureNode : PMNode → Bool
  | .figure _ _ => true
  | _ => false

def isParagraphNode : PMNode → Bool
  | .paragraph _ => true
  | _ => false

mutual
/-- ProseMirror `node.nodeSize`. -/
def nodeSize : PMNode → Nat
  | .text s => s.length
  | .image _ => 1
  | .paragraph cs => 2 + contentSize cs
  | .figure _ cs => 2 + contentSize cs
  | .gallery cs => 2 + contentSize cs
  | .figcaption cs => 2 + contentSize cs
  | .other _ cs => 2 + contentSize cs

/-- ProseMirror `fragment.size` of a child list. -/
def contentSize : List PMNode → Nat
  | [] => 0
  | n :: ns => nodeSize n + contentSize ns
end

@[simp] theorem nodeSize_text (s : String) : nodeSize (.text s) = s.length := rfl
@[simp] theorem nodeSize_image (s : String) : nodeSize (.image s) = 1 := rfl
@[simp] theorem nodeSize_paragraph (cs : List PMNode) :
    nodeSize (.paragraph cs) = 2 + contentSize cs := rfl
@[simp] theorem nodeSize_figure (a : FigureAttrs) (cs : List PMNode) :
    nodeSize (.figure a cs) = 2 + contentSize cs := rfl
@[simp] theorem nodeSize_gallery (cs : List PMNode) :
    nodeSize (.gallery cs) = 2 + contentSize cs := rfl
@[simp] theorem nodeSize_figcaption (cs : List PMNode) :
    nodeSize (.figcaption cs) = 2 + contentSize cs := rfl
@[simp] theorem nodeSize_other (nm : String) (cs : List PMNode) :
    nodeSize (.other nm cs) = 2 + contentSize cs := rfl
@[simp] theorem contentSize_nil : contentSize [] = 0 := rfl
@[simp] theorem contentSize_cons (n : PMNode) (ns : List PMNode) :
    contentSize (n :: ns) = nodeSize n + contentSize ns := rfl

/-- HTML text-node escaping performed by serializing a DOM text node and
reading it back through `innerHTML` (ampersand, less-than, greater-than). -/
def escapeChar (c : Char) : String :=
  if c = '&' then "&amp;"
  else if c = '<' then "&lt;"
  else if c = '>' then "&gt;"
  else String.singleton c

def escapeHtml (s : String) : String :=
  String.join (s.toList.map escapeChar)

/-- Serialization of one inline node by the persistence `DOMSerializer`.
The schema gives figure nodes the content model `inline*`, and the only
inline node type of this schema is text, so non-text nodes never occur in
serialized caption content. -/
def serializeInlineNode : PMNode → String
  | .text s => escapeHtml s
  | _ => ""

/-- Serialized inner markup of an inline fragment. -/
def serializeInline (cs : List PMNode) : String :=
  String.join (cs.map serializeInlineNode)

/-- Trix regular expression `^image(\/(gif|png|jpe?g)|$)` from the source:
anchored at the start only, so either the whole string is `image` or it
starts with one of the four `image/...` prefixes. -/
def isPreviewableMatch (s : String) : Bool :=
  s == "image" || s.startsWith "image/gif" || s.startsWith "image/png" ||
    s.startsWith "image/jpg" || s.startsWith "image/jpeg"

/-- Source function `canPreview`. -/
def canPreview (previewable : Bool) (contentType : String) : Bool :=
  previewable || isPreviewableMatch contentType

def isWordChar (c : Char) : Bool :=
  c.isAlphanum || c == '_'

/-- Split a character list at every dot. -/
def splitOnDot : List Char → List (List Char)
  | [] => [[]]
  | c :: rest =>
      match splitOnDot rest with
      | [] => [[]]
      | g :: gs => if c = '.' then [] :: g :: gs else (c :: g) :: gs

def lowerChar (c : Char) : Char :=
  if 'A' ≤ c && c ≤ 'Z' then Char.ofNat (c.toNat + 32) else c

def toLowerStr (s : String) : String :=
  ⟨s.toList.map lowerChar⟩

/-- Capture group of the regular expression match `fileName.match(/\.(\w+)$/)`:
the characters after the last dot, provided they are a non-empty run of word
characters; otherwise the match is null. -/
def extCapture (fileName : String) : Option String :=
  match splitOnDot fileName.toList with
  | [] => none
  | [_] => none
  | parts =>
      let lastPart := (parts.getLast?).getD []
      if (!lastPart.isEmpty) && lastPart.all isWordChar then some ⟨lastPart⟩
      else none

/-- Source function `toExtension`.  When the regular expression does not
match, the optional chain evaluates to `undefined` and the string
concatenation coerces it, yielding the literal class `attachment--undefined`. -/
def toExtension (fileName : String) : String :=
  if fileName = "" then ""
  else
    match extCapture fileName with
    | some ext => "attachment--" ++ toLowerStr ext
    | none => "attachment--undefined"

/-- Source function `toType`. -/
def toType (content : String) (previewable : Bool) : String :=
  if content ≠ "" then "attachment--content"
  else if previewable then "attachment--preview"
  else "attachment--file"

/-- JavaScript `a || b` on strings: the empty string is falsy. -/
def jsOrString (a b : String) : String :=
  if a ≠ "" then a else b

/-- The JSON object written into the `data-trix-attachment` attribute by
`renderHTML` (variable `attachmentAttrs` in the source). -/
structure TrixAttachmentPayload where
  caption : String
  contentType : String
  content : String
  filename : String
  filesize : String
  height : String
  width : String
  sgid : String
  url : String
  src : String
  deriving DecidableEq, Repr

/-- The persisted form of an `attachment-figure` node produced by
`renderHTML`: the figure element's class string, its data attributes, the
optional nested `img` element (src, width, height; present only when the
`content` attribute is empty), and the inner markup of the nested
`figcaption` element, which holds the node's serialized inline content. -/
structure RenderedFigure where
  className : String
  dataTrixContentType : String
  dataTrixAttachment : TrixAttachmentPayload
  dataTrixAttributesCaption : String
  img : Option (String × String × String)
  figcaptionInnerHTML : String
  deriving DecidableEq, Repr

/-- The `renderHTML` function of the `attachment-figure` node type. -/
def renderHTMLFigure (a : FigureAttrs) (cs : List PMNode) : RenderedFigure :=
  { className := "attachment" ++ " " ++
      toType a.content (canPreview a.previewable a.contentType) ++ " " ++
      toExtension a.fileName
    dataTrixContentType := a.contentType
    dataTrixAttachment :=
      ⟨a.caption, a.contentType, a.content, a.fileName, a.fileSize,
        a.height, a.width, a.sgid, a.url, a.src⟩
    dataTrixAttributesCaption := a.caption
    img := if a.content = "" then some (jsOrString a.url a.src, a.width, a.height)
           else none
    figcaptionInnerHTML := serializeInline cs }

/-- The `figcaption` lookup of `handleCaptions`: serialize the node through
the persistence serializer into a scratch element and query the `figcaption`
sub-element.  `renderHTML` emits a `figcaption` in both of its branches, so
the query always succeeds; the `Option` mirrors the null check in the
source. -/
def scratchFigcaption (a : FigureAttrs) (cs : List PMNode) : Option String :=
  some (renderHTMLFigure a cs).figcaptionInnerHTML

/-- Attribute rewrite computed by `handleCaptions` for a figure node: `some`
of the new attribute record when the stored `caption` attribute differs from
the extracted markup, `none` when no correction is needed.  Non-figure nodes
and a missing `figcaption` yield `none`. -/
def handleCaptionsResult : PMNode → Option FigureAttrs
  | .figure a cs =>
      match scratchFigcaption a cs with
      | none => none
      | some cap => if a.caption ≠ cap then some { a with caption := cap } else none
  | _ => none

/-- Whether `handleGallery` returns `true` (fires) on this node:
the node is an `attachment-gallery` of `nodeSize` 2. -/
def handleGalleryFires (n : PMNode) : Bool :=
  isGalleryNode n && (nodeSize n == 2)

/-- Whether `handleCaptions` returns `true` (fires) on this node. -/
def handleCaptionsFires (n : PMNode) : Bool :=
  (handleCaptionsResult n).isSome

mutual
/-- Net effect of the reconciliation plugin's corrective transaction on a
single node of the committed document: an empty gallery (nodeSize 2) is
replaced at its position by one empty paragraph, a figure whose stored
caption differs from its serialized caption markup gets exactly that
attribute rewritten, and the pass recurses through all descendants.  Both
corrections preserve node sizes, so the positions recorded while traversing
`newState.doc.descendants` stay valid as the steps accumulate in one
transaction, and the transaction's effect is this structural map. -/
def reconcileNode : PMNode → PMNode
  | .gallery cs =>
      if nodeSize (.gallery cs) == 2 then .paragraph []
      else .gallery (reconcileList cs)
  | .figure a cs =>
      match handleCaptionsResult (.figure a cs) with
      | some a' => .figure a' (reconcileList cs)
      | none => .figure a (reconcileList cs)
  | .paragraph cs => .paragraph (reconcileList cs)
  | .figcaption cs => .figcaption (reconcileList cs)
  | .other nm cs => .other nm (reconcileList cs)
  | .text s => .text s
  | .image s => .image s

def reconcileList : List PMNode → List PMNode
  | [] => []
  | n :: ns => reconcileNode n :: reconcileList ns
end

mutual
/-- Whether any handler fires anywhere in the subtree: this is the
`modified` flag accumulated over `doc.descendants`. -/
def anyFireNode : PMNode → Bool
  | .text s => handleGalleryFires (.text s) || handleCaptionsFires (.text s)
  | .image s => handleGalleryFires (.image s) || handleCaptionsFires (.image s)
  | .paragraph cs =>
      handleGalleryFires (.paragraph cs) || handleCaptionsFires (.paragraph cs) ||
        anyFireList cs
  | .figure a cs =>
      handleGalleryFires (.figure a cs) || handleCaptionsFires (.figure a cs) ||
        anyFireList cs
  | .gallery cs =>
      handleGalleryFires (.gallery cs) || handleCaptionsFires (.gallery cs) ||
        anyFireList cs
  | .figcaption cs =>
      handleGalleryFires (.figcaption cs) || handleCaptionsFires (.figcaption cs) ||
        anyFireList cs
  | .other nm cs =>
      handleGalleryFires (.other nm cs) || handleCaptionsFires (.other nm cs) ||
        anyFireList cs

def anyFireList : List PMNode → Bool
  | [] => false
  | n :: ns => anyFireNode n || anyFireList ns
end

/-- The gallery plugin's `appendTransaction`: walk the committed document,
run both handlers on every node; if any fired, return the corrective
transaction (whose application yields the reconciled document), otherwise
return no transaction at all. -/
def appendTransactionModel (doc : List PMNode) : Option (List PMNode) :=
  if anyFireList doc then some (reconcileList doc) else none

mutual
/-- No gallery node with zero children occurs in the subtree. -/
def emptyGalleryFreeNode : PMNode → Bool
  | .gallery cs => (!cs.isEmpty) && emptyGalleryFreeList cs
  | .figure _ cs => emptyGalleryFreeList cs
  | .paragraph cs => emptyGalleryFreeList cs
  | .figcaption cs => emptyGalleryFreeList cs
  | .other _ cs => emptyGalleryFreeList cs
  | .text _ => true
  | .image _ => true

def emptyGalleryFreeList : List PMNode → Bool
  | [] => true
  | n :: ns => emptyGalleryFreeNode n && emptyGalleryFreeList ns
end

def isInlineNode : PMNode → Bool
  | .text _ => true
  | _ => false

mutual
/-- The fragment of schema validity the idempotence argument needs: every
figure node's content consists of inline (text) nodes only, as its content
model `inline*` prescribes. -/
def wfNode : PMNode → Bool
  | .figure _ cs => cs.all isInlineNode && wfList cs
  | .paragraph cs => wfList cs
  | .gallery cs => wfList cs
  | .figcaption cs => wfList cs
  | .other _ cs => wfList cs
  | .text _ => true
  | .image _ => true

def wfList : List PMNode → Bool
  | [] => true
  | n :: ns => wfNode n && wfList ns
end

/-- JavaScript `a || b` where `a` may be `undefined`/`null` (`none`) and the
empty string is falsy. -/
def jsOrOpt (a b : Option String) : Option String :=
  match a with
  | some s => if s ≠ "" then some s else b
  | none => b

/-- Key lookup `JSON.parse(attrs)[attribute]` on the `data-trix-attachment`
payload: `none` (JavaScript `undefined`) for any key the payload does not
carry — in particular for `content-type` and `previewable`, which
`renderHTML` never writes. -/
def lookupTrix (p : TrixAttachmentPayload) (attrName : String) : Option String :=
  if attrName = "caption" then some p.caption
  else if attrName = "contentType" then some p.contentType
  else if attrName = "content" then some p.content
  else if attrName = "filename" then some p.filename
  else if attrName = "filesize" then some p.filesize
  else if attrName = "height" then some p.height
  else if attrName = "width" then some p.width
  else if attrName = "sgid" then some p.sgid
  else if attrName = "url" then some p.url
  else if attrName = "src" then some p.src
  else none

/-- Source function `findAttribute`, applied to a figure element produced by
`renderHTMLFigure`: such an element has no `action-text-attachment` ancestor,
so the first branch yields nothing and the value comes from the element's own
`data-trix-attachment` JSON payload. -/
def findAttribute (r : RenderedFigure) (attrName : String) : Option String :=
  lookupTrix r.dataTrixAttachment attrName

/-- Parse-rule results for one attribute under tiptap semantics: a `none`
returned by `parseHTML` makes the attribute fall back to its declared
default, while any string (including the empty string) is kept. -/
def applyDefault (v : Option String) (dflt : String) : String :=
  v.getD dflt

/-- The `caption` parse rule: `querySelector("figcaption")?.innerHTML ||
findAttribute(element, "caption")`, default `""`. -/
def parseCaption (r : RenderedFigure) : String :=
  applyDefault (jsOrOpt (some r.figcaptionInnerHTML) (findAttribute r "caption")) ""

/-- The `contentType` parse rule: `findAttribute(element, "content-type") ||
JSON.parse(element.getAttribute("data-trix-attachment")).contentType ||
"application/octet-stream"`. -/
def parseContentType (r : RenderedFigure) : String :=
  applyDefault
    (jsOrOpt (jsOrOpt (findAttribute r "content-type")
        (some r.dataTrixAttachment.contentType))
      (some "application/octet-stream")) ""

/-- The `content` parse rule: `findAttribute(element, "content") ||
closest("action-text-attachment")?.innerHTML || ""`; the rendered persistence
output has no `action-text-attachment` ancestor. -/
def parseContent (r : RenderedFigure) : String :=
  applyDefault (jsOrOpt (findAttribute r "content") (jsOrOpt none (some ""))) ""

/-- The `previewable` parse rule reads the `previewable` key of the
`data-trix-attachment` JSON payload; `renderHTML` never writes that key, so
the value is `undefined` and the declared default `false` applies. -/
def parsePreviewable (_r : RenderedFigure) : Bool :=
  false

/-- Parsing the rendered persistence output back through the extension's
`parseHTML` rules and per-attribute `parseHTML` functions (the first parse
rule, `figure[data-trix-attachment]`, matches the rendered element). -/
def parseRenderedFigure (r : RenderedFigure) : FigureAttrs :=
  { attachmentId := none
    caption := parseCaption r
    progress := 100
    sgid := applyDefault (findAttribute r "sgid") ""
    src := applyDefault (findAttribute r "src") ""
    height := applyDefault (findAttribute r "height") ""
    width := applyDefault (findAttribute r "width") ""
    contentType := parseContentType r
    fileName := applyDefault (findAttribute r "filename") ""
    fileSize := applyDefault (findAttribute r "filesize") ""
    content := parseContent r
    url := applyDefault (findAttribute r "url") ""
    previewable := parsePreviewable r }

/-- Equality on the field set named by the round-trip requirement:
caption, contentType, fileName, fileSize, width, height, url, src, sgid. -/
def eqOnRoundTripFields (a b : FigureAttrs) : Prop :=
  a.caption = b.caption ∧ a.contentType = b.contentType ∧
    a.fileName = b.fileName ∧ a.fileSize = b.fileSize ∧
    a.width = b.width ∧ a.height = b.height ∧
    a.url = b.url ∧ a.src = b.src ∧ a.sgid = b.sgid

instance (a b : FigureAttrs) : Decidable (eqOnRoundTripFields a b) := by
  unfold eqOnRoundTripFields
  infer_instance

/-- ProseMirror `Fragment.findIndex` with the default rounding: scanning the
children left to right, a position strictly inside child `i` yields
`(i, start of child i)`, a position on the boundary after child `i` yields
`(i + 1, position)`. -/
def findIndexAux : List PMNode → Nat → Nat → Nat → Nat × Nat
  | [], _, i, cur => (i, cur)
  | c :: cs, pos, i, cur =>
      let e := cur + nodeSize c
      if pos < e then (i, cur)
      else if e == pos then (i + 1, pos)
      else findIndexAux cs pos (i + 1) e

/-- One ancestor frame of a resolved position: the entered node and the
absolute position at which its content starts. -/
structure RFrame where
  node : PMNode
  contentStart : Nat

/-- ProseMirror `Node.resolve`, descending from a child list: stop when the
remaining offset falls on a child boundary of the current level or inside a
text child, otherwise enter the child (skipping its opening token) and
recurse.  The fuel argument dominates the tree depth. -/
def resolveFrames : Nat → List PMNode → Nat → Nat → List RFrame
  | 0, _, _, _ => []
  | fuel + 1, cs, parentOffset, absStart =>
      let p := findIndexAux cs parentOffset 0 0
      let rem := parentOffset - p.2
      if rem == 0 then []
      else
        match cs.get? p.1 with
        | none => []
        | some c =>
            if isTextNode c then []
            else
              ⟨c, absStart + p.2 + 1⟩ ::
                resolveFrames fuel (children c) (rem - 1) (absStart + p.2 + 1)

/-- A resolved position, keeping the document, the position, and the chain of
entered ancestors (outermost first). -/
structure ResolvedPos where
  doc : List PMNode
  pos : Nat
  frames : List RFrame

/-- Resolve a position in a document (`state.doc.resolve(pos)`). -/
def resolvePos (doc : List PMNode) (pos : Nat) : ResolvedPos :=
  ⟨doc, pos, resolveFrames (contentSize doc + 1) doc pos 0⟩

/-- The depth-1 ancestor `$pos.node(1)`: the top-level block containing the
position, or `none` when the position sits at document level (where the
JavaScript `.node(1)` yields `undefined`). -/
def ResolvedPos.node1 (r : ResolvedPos) : Option PMNode :=
  r.frames.head?.map RFrame.node

/-- ProseMirror `$pos.end()`: the end position of the content of the node the
position points into (the document itself at depth 0). -/
def ResolvedPos.endPos (r : ResolvedPos) : Nat :=
  match r.frames.getLast? with
  | none => contentSize r.doc
  | some f => f.contentStart + contentSize (children f.node)

/-- End position of the content of the depth-1 ancestor (used to state where
the end of a matched gallery's content lies). -/
def ResolvedPos.node1End (r : ResolvedPos) : Option Nat :=
  r.frames.head?.map fun f => f.contentStart + contentSize (children f.node)

/-- Presence of the node types the insertion command instantiates. -/
structure ModelSchema where
  hasFigure : Bool
  hasGallery : Bool
  hasParagraph : Bool
  deriving DecidableEq, Repr

def fullSchema : ModelSchema := ⟨true, true, true⟩

/-- One step recorded in the command's transaction. -/
inductive TrOp where
  | insert (pos : Nat) (nodes : List PMNode)
  | replaceWith (rangeFrom rangeTo : Nat) (nodes : List PMNode)

def TrOp.insertPos : TrOp → Option Nat
  | .insert p _ => some p
  | _ => none

def TrOp.range : TrOp → Option (Nat × Nat)
  | .replaceWith f t _ => some (f, t)
  | _ => none

/-- Outcome of a successfully returning command invocation: the steps added
to the dispatched transaction, the position the selection was moved to by
`selectionToInsertionEnd` (if it ran), and the boolean return value. -/
structure CmdResult where
  ops : List TrOp
  selectionSetTo : Option Nat
  ret : Bool

/-- Editor selection: `state.selection.anchor`, `.from` and `.to`. -/
structure Sel where
  anchor : Nat
  fromPos : Nat
  toPos : Nat
  deriving DecidableEq, Repr

/-- Figure node built from one attachment descriptor (the command's
`attachmentNodes` map): attributes are the descriptor, content is one text
node holding the caption when the caption is non-empty. -/
def mkFigureNode (a : FigureAttrs) : PMNode :=
  .figure a (if a.caption ≠ "" then [.text a.caption] else [])

/-- The `attachments.map(... schema.nodes["attachment-figure"].create ...)`
step: with the figure node type missing from the schema the member access
throws a `TypeError` — unless the descriptor list is empty, in which case the
callback never runs. -/
def buildFigures (schema : ModelSchema) (options : List FigureAttrs) :
    Except String (List PMNode) :=
  match options with
  | [] => .ok []
  | _ =>
      if schema.hasFigure then .ok (options.map mkFigureNode)
      else .error "TypeError: attachment-figure node type missing"

/-- The `setAttachment` insertion command.  Every `tr` mutation in the source
happens after all schema node-type accesses of its branch, so a thrown
`TypeError` (modelled as `Except.error`) always precedes the first step: an
error outcome carries no steps and the document is untouched. -/
def setAttachment (schema : ModelSchema) (doc : List PMNode) (sel : Sel)
    (options : List FigureAttrs) : Except String CmdResult :=
  let currentSelection := resolvePos doc sel.anchor
  let nodeBefore := resolvePos doc (sel.anchor - 2)
  match currentSelection.node1 with
  | none => .error "TypeError: cannot read type of undefined"
  | some topNode =>
      let isInGalleryCurrent := isGalleryNode topNode
      let isInGalleryAfter := (nodeBefore.node1.map isGalleryNode).getD false
      match buildFigures schema options with
      | .error e => .error e
      | .ok attachmentNodes =>
          if isInGalleryCurrent || isInGalleryAfter then
            let backtrack := if isInGalleryCurrent then 0 else 2
            .ok ⟨[TrOp.insert (currentSelection.endPos - backtrack) attachmentNodes],
              none, true⟩
          else
            if schema.hasGallery then
              if schema.hasParagraph then
                let galleryNode := PMNode.gallery attachmentNodes
                let inserted : List PMNode :=
                  [.paragraph [], galleryNode, .paragraph []]
                .ok ⟨[TrOp.replaceWith (sel.fromPos - 1) sel.toPos inserted],
                  some (sel.fromPos - 1 + contentSize inserted), true⟩
              else .error "TypeError: paragraph node type missing"
            else .error "TypeError: attachment-gallery node type missing"

/-- Whether an invocation returned `false` (as opposed to returning `true` or
throwing). -/
def returnedFalse (r : Except String CmdResult) : Bool :=
  match r with
  | .ok c => !c.ret
  | .error _ => false

/-- ProseMirror `doc.nodeAt(pos)`: the node starting exactly at `pos`,
descending through ancestors that merely contain `pos`. -/
def nodeAtFuel : Nat → List PMNode → Nat → Option PMNode
  | 0, _, _ => none
  | fuel + 1, cs, pos =>
      let p := findIndexAux cs pos 0 0
      match cs.get? p.1 with
      | none => none
      | some c =>
          if p.2 == pos then some c
          else if isTextNode c then some c
          else nodeAtFuel fuel (children c) (pos - p.2 - 1)

def nodeAtDoc (doc : List PMNode) (pos : Nat) : Option PMNode :=
  nodeAtFuel (contentSize doc + 1) doc pos

/-- Replace the markup of a figure node (its attribute record) in place,
keeping every other node unchanged, as `tr.setNodeMarkup(pos, undefined,
attrs)` does for the figure node type. -/
def setMarkup (n : PMNode) (a : FigureAttrs) : PMNode :=
  match n with
  | .figure _ cs => .figure a cs
  | m => m

/-- Positional update underlying `setNodeMarkup`: rewrite the node starting
at `pos`. -/
def updateNodeAt : Nat → List PMNode → Nat → FigureAttrs → Option (List PMNode)
  | 0, _, _, _ => none
  | fuel + 1, cs, pos, a =>
      let p := findIndexAux cs pos 0 0
      match cs.get? p.1 with
      | none => none
      | some c =>
          if p.2 == pos then some (cs.set p.1 (setMarkup c a))
          else if isTextNode c then some cs
          else
            match updateNodeAt fuel (children c) (pos - p.2 - 1) a with
            | none => none
            | some cs' => some (cs.set p.1 (withChildren c cs'))

/-- The image `onload` callback of the figure node view: with `getPos` being
a function the guard passes, `getPos()` is evaluated (yielding `none` once
the node view has been destroyed because its node left the document), and
`tr.setNodeMarkup(getPos(), undefined, attrs)` is built and dispatched.
`setNodeMarkup` raises a `RangeError` when the position is `undefined` or no
node starts there; the raise happens while the transaction is being built,
so `view.dispatch` never runs and the document is left unchanged — but the
error propagates out of the callback instead of being silently swallowed. -/
def dimensionWriteBack (doc : List PMNode) (getPos : Option Nat)
    (nodeAttrs : FigureAttrs) (naturalWidth naturalHeight : String) :
    Except String (List PMNode) :=
  match getPos with
  | none => .error "RangeError: position undefined"
  | some p =>
      match nodeAtDoc doc p with
      | none => .error "RangeError: no node at given position"
      | some _ =>
          match updateNodeAt (contentSize doc + 1) doc p
              { nodeAttrs with width := naturalWidth, height := naturalHeight } with
          | none => .error "RangeError: no node at given position"
          | some doc' => .ok doc'

@[simp] theorem handleCaptionsResult_figure (a : FigureAttrs) (cs : List PMNode) :
    handleCaptionsResult (.figure a cs) =
      if a.caption ≠ serializeInline cs then
        some { a with caption := serializeInline cs }
      else none := rfl

theorem reconcile_size_node : ∀ n, nodeSize (reconcileNode n) = nodeSize n := fun n =>
  @PMNode.rec (fun n => nodeSize (reconcileNode n) = nodeSize n)
    (fun l => contentSize (reconcileList l) = contentSize l)
    (fun _ => rfl)
    (fun _ => rfl)
    (fun cs ih => by simp [reconcileNode, ih])
    (fun a cs ih => by
      by_cases hc : a.caption = serializeInline cs <;>
        simp [reconcileNode, hc, ih])
    (fun cs ih => by
      simp only [reconcileNode]
      split
      · next h => simp only [beq_iff_eq, nodeSize_gallery] at h; simp [h]
      · simp [ih])
    (fun cs ih => by simp [reconcileNode, ih])
    (fun nm cs ih => by simp [reconcileNode, ih])
    rfl
    (fun hd tl ih1 ih2 => by simp [reconcileList, ih1, ih2])
    n

theorem reconcile_size_list : ∀ l, contentSize (reconcileList l) = contentSize l := by
  intro l
  induction l with
  | nil => rfl
  | cons n ns ih => simp [reconcileList, ih, reconcile_size_node]

theorem reconcileList_inline_id : ∀ l : List PMNode,
    l.all isInlineNode = true → reconcileList l = l := by
  intro l
  induction l with
  | nil => intro _; rfl
  | cons n ns ih =>
      intro h
      simp only [List.all_cons, Bool.and_eq_true] at h
      cases n with
      | text s => simp [reconcileList, reconcileNode, ih h.2]
      | _ => simp [isInlineNode] at h

theorem emptyGalleryFree_reconcile_node :
    ∀ n, emptyGalleryFreeNode (reconcileNode n) = true := fun n =>
  @PMNode.rec (fun n => emptyGalleryFreeNode (reconcileNode n) = true)
    (fun l => emptyGalleryFreeList (reconcileList l) = true)
    (fun _ => rfl)
    (fun _ => rfl)
    (fun cs ih => by simp [reconcileNode, emptyGalleryFreeNode, ih])
    (fun a cs ih => by
      by_cases hc : a.caption = serializeInline cs <;>
        simp [reconcileNode, hc, emptyGalleryFreeNode, ih])
    (fun cs ih => by
      simp only [reconcileNode]
      split
      · rfl
      · next h =>
          cases cs with
          | nil => exact absurd (by rfl) h
          | cons a as =>
              have h2 := ih
              simp only [reconcileList] at h2
              simp [emptyGalleryFreeNode, reconcileList, h2])
    (fun cs ih => by simp [reconcileNode, emptyGalleryFreeNode, ih])
    (fun nm cs ih => by simp [reconcileNode, emptyGalleryFreeNode, ih])
    rfl
    (fun hd tl ih1 ih2 => by simp [reconcileList, emptyGalleryFreeList, ih1, ih2])
    n

theorem emptyGalleryFree_reconcile_list :
    ∀ l, emptyGalleryFreeList (reconcileList l) = true := by
  intro l
  induction l with
  | nil => rfl
  | cons n ns ih =>
      simp [reconcileList, emptyGalleryFreeList, ih, emptyGalleryFree_reconcile_node]

theorem anyFire_inline : ∀ l : List PMNode,
    l.all isInlineNode = true → anyFireList l = false := by
  intro l
  induction l with
  | nil => intro _; rfl
  | cons n ns ih =>
      intro h
      simp only [List.all_cons, Bool.and_eq_true] at h
      cases n with
      | text s =>
          simp [anyFireList, anyFireNode, handleGalleryFires, handleCaptionsFires,
            handleCaptionsResult, isGalleryNode, ih h.2]
      | _ => simp [isInlineNode] at h

theorem noFire_after_reconcile_node :
    ∀ n, wfNode n = true → anyFireNode (reconcileNode n) = false := fun n =>
  @PMNode.rec (fun n => wfNode n = true → anyFireNode (reconcileNode n) = false)
    (fun l => wfList l = true → anyFireList (reconcileList l) = false)
    (fun _ _ => rfl)
    (fun _ _ => rfl)
    (fun cs ih hw => by
      simp only [wfNode] at hw
      simp [reconcileNode, anyFireNode, handleGalleryFires, handleCaptionsFires,
        handleCaptionsResult, isGalleryNode, ih hw])
    (fun a cs ih hw => by
      simp only [wfNode, Bool.and_eq_true] at hw
      have hid : reconcileList cs = cs := reconcileList_inline_id cs hw.1
      by_cases hc : a.caption = serializeInline cs
      · simp [reconcileNode, hc, anyFireNode, handleGalleryFires,
          handleCaptionsFires, isGalleryNode, hid, anyFire_inline cs hw.1]
      · simp [reconcileNode, hc, anyFireNode, handleGalleryFires,
          handleCaptionsFires, isGalleryNode, hid, anyFire_inline cs hw.1])
    (fun cs ih hw => by
      simp only [wfNode] at hw
      simp only [reconcileNode]
      split
      · rfl
      · next h =>
          have hL : anyFireList (reconcileList cs) = false := ih hw
          have hsz : contentSize (reconcileList cs) = contentSize cs :=
            reconcile_size_list cs
          simp only [beq_iff_eq, nodeSize_gallery] at h
          simp [anyFireNode, handleGalleryFires, handleCaptionsFires,
            handleCaptionsResult, isGalleryNode, hL, hsz, h])
    (fun cs ih hw => by
      simp only [wfNode] at hw
      simp [reconcileNode, anyFireNode, handleGalleryFires, handleCaptionsFires,
        handleCaptionsResult, isGalleryNode, ih hw])
    (fun nm cs ih hw => by
      simp only [wfNode] at hw
      simp [reconcileNode, anyFireNode, handleGalleryFires, handleCaptionsFires,
        handleCaptionsResult, isGalleryNode, ih hw])
    (fun _ => rfl)
    (fun hd tl ih1 ih2 hw => by
      simp only [wfList, Bool.and_eq_true] at hw
      simp [reconcileList, anyFireList, ih1 hw.1, ih2 hw.2])
    n

theorem noFire_after_reconcile_list :
    ∀ l, wfList l = true → anyFireList (reconcileList l) = false := by
  intro l
  induction l with
  | nil => intro _; rfl
  | cons n ns ih =>
      intro hw
      simp only [wfList, Bool.and_eq_true] at hw
      simp [reconcileList, anyFireList, noFire_after_reconcile_node n hw.1, ih hw.2]

/-- C1: the reconciliation pass replaces every gallery of zero children
(nodeSize 2) at its position by a single empty paragraph, and consequently
the committed document it produces — for an arbitrary starting document —
contains no gallery node with zero children. -/
theorem empty_gallery_collapse :
    (∀ doc, emptyGalleryFreeList (reconcileList doc) = true) ∧
      reconcileNode (.gallery []) = .paragraph [] :=
  ⟨emptyGalleryFree_reconcile_list, rfl⟩

/-- C2: for a figure node, the caption-sync step extracts the inner markup of
the `figcaption` sub-element of the node's persistence-serializer rendering,
and when the stored `caption` attribute differs from it the pass rewrites
exactly that attribute — the resulting attribute record has the extracted
markup as caption and agrees with the old record on every other field. -/
theorem caption_sync_rewrites_only_caption :
    ∀ (a : FigureAttrs) (cs : List PMNode),
      scratchFigcaption a cs = some (serializeInline cs) ∧
        (a.caption ≠ serializeInline cs →
          ∃ a', reconcileNode (.figure a cs) = .figure a' (reconcileList cs) ∧
            a'.caption = serializeInline cs ∧
            a'.attachmentId = a.attachmentId ∧ a'.progress = a.progress ∧
            a'.sgid = a.sgid ∧ a'.src = a.src ∧ a'.height = a.height ∧
            a'.width = a.width ∧ a'.contentType = a.contentType ∧
            a'.fileName = a.fileName ∧ a'.fileSize = a.fileSize ∧
            a'.content = a.content ∧ a'.url = a.url ∧
            a'.previewable = a.previewable) := by
  intro a cs
  refine ⟨rfl, fun hne => ⟨{ a with caption := serializeInline cs }, ?_⟩⟩
  refine ⟨?_, rfl, rfl, rfl, rfl, rfl, rfl, rfl, rfl, rfl, rfl, rfl, rfl, rfl⟩
  simp [reconcileNode, hne]

theorem caption_sync_rewrites_only_caption_witness :
    ∃ a', reconcileNode (.figure { caption := "stale" } [.text "fresh"]) =
        .figure a' (reconcileList [.text "fresh"]) ∧
      a'.caption = serializeInline [.text "fresh"] ∧
      a'.attachmentId = (none : Option String) ∧ a'.progress = 100 ∧
      a'.sgid = "" ∧ a'.src = "" ∧ a'.height = "" ∧
      a'.width = "" ∧ a'.contentType = "" ∧
      a'.fileName = "" ∧ a'.fileSize = "" ∧
      a'.content = "" ∧ a'.url = "" ∧ a'.previewable = false :=
  (caption_sync_rewrites_only_caption { caption := "stale" } [.text "fresh"]).2
    (by decide)

/-- C6: the reconciliation pass is idempotent — on a schema-conforming
document that is itself the output of the pass, neither handler fires on any
node and `appendTransaction` emits no corrective transaction at all. -/
theorem reconciliation_idempotent :
    ∀ doc, wfList doc = true →
      anyFireList (reconcileList doc) = false ∧
        appendTransactionModel (reconcileList doc) = none := by
  intro doc hw
  have h := noFire_after_reconcile_list doc hw
  exact ⟨h, by simp [appendTransactionModel, h]⟩

theorem reconciliation_idempotent_witness :
    anyFireList (reconcileList [.gallery [.figure {} [.text "a"]], .gallery []]) =
        false ∧
      appendTransactionModel
          (reconcileList [.gallery [.figure {} [.text "a"]], .gallery []]) = none :=
  reconciliation_idempotent [.gallery [.figure {} [.text "a"]], .gallery []]
    (by decide)

/-- C10: the reconciliation pass never touches a node that is neither a
gallery nor a figure — on such a node neither handler fires, and the pass
keeps the node's kind and attributes, only reconciling its descendants. -/
theorem reconcile_leaves_other_nodes_alone :
    ∀ n, isGalleryNode n = false → isFigureNode n = false →
      handleGalleryFires n = false ∧ handleCaptionsFires n = false ∧
        reconcileNode n = withChildren n (reconcileList (children n)) := by
  intro n hg hf
  cases n with
  | text s =>
      exact ⟨rfl, rfl, rfl⟩
  | image s =>
      exact ⟨rfl, rfl, rfl⟩
  | paragraph cs =>
      exact ⟨rfl, rfl, rfl⟩
  | figure a cs => simp [isFigureNode] at hf
  | gallery cs => simp [isGalleryNode] at hg
  | figcaption cs =>
      exact ⟨rfl, rfl, rfl⟩
  | other nm cs =>
      exact ⟨rfl, rfl, rfl⟩

theorem reconcile_leaves_other_nodes_alone_witness :
    handleGalleryFires (.other "heading" [.text "t"]) = false ∧
      handleCaptionsFires (.other "heading" [.text "t"]) = false ∧
        reconcileNode (.other "heading" [.text "t"]) =
          withChildren (.other "heading" [.text "t"])
            (reconcileList (children (.other "heading" [.text "t"]))) :=
  reconcile_leaves_other_nodes_alone (.other "heading" [.text "t"]) rfl rfl

theorem buildFigures_full (schema : ModelSchema) (options : List FigureAttrs)
    (h : schema.hasFigure = true) :
    buildFigures schema options = .ok (options.map mkFigureNode) := by
  cases options with
  | nil => rfl
  | cons a as => simp [buildFigures, h]

/-- Document fixture: one gallery holding a sole figure, caret inside it. -/
def soleFigureGalleryDoc : List PMNode := [.gallery [.figure {} []]]

/-- Document fixture: one gallery holding two figures, caret inside the
first figure's caption. -/
def twoFigureGalleryDoc : List PMNode :=
  [.gallery [.figure { caption := "a" } [.text "a"], .figure {} []]]

/-- Document fixture: a paragraph containing the text `ab`. -/
def abParagraphDoc : List PMNode := [.paragraph [.text "ab"]]

/-- C3 (amended): in the merge branch the command emits exactly one step,
inserting exactly the figure nodes built from the descriptors — no paragraph
nodes — at the position `end of the anchor's parent block` minus a backtrack
of 0 when the current top-level context is the gallery and of 2 when only
the preceding context is. -/
theorem merge_inserts_at_parent_end :
    ∀ (schema : ModelSchema) (doc : List PMNode) (sel : Sel)
      (options : List FigureAttrs) (topNode : PMNode),
      (resolvePos doc sel.anchor).node1 = some topNode →
      (isGalleryNode topNode ||
        ((resolvePos doc (sel.anchor - 2)).node1.map isGalleryNode).getD false) =
          true →
      schema.hasFigure = true →
      setAttachment schema doc sel options =
          .ok ⟨[TrOp.insert ((resolvePos doc sel.anchor).endPos -
                (if isGalleryNode topNode then 0 else 2))
              (options.map mkFigureNode)], none, true⟩ ∧
        (options.map mkFigureNode).all (fun n => !isParagraphNode n) = true := by
  intro schema doc sel options topNode h1 hor hF
  constructor
  · simp only [setAttachment, h1, buildFigures_full schema options hF, hor,
      if_true]
  · simp [List.all_eq_true, mkFigureNode, isParagraphNode]

theorem merge_inserts_at_parent_end_witness :
    setAttachment fullSchema soleFigureGalleryDoc ⟨2, 2, 2⟩ [{ caption := "hi" }] =
        .ok ⟨[TrOp.insert 2 [.figure { caption := "hi" } [.text "hi"]]],
          none, true⟩ ∧
      ([{ caption := "hi" }].map mkFigureNode).all (fun n => !isParagraphNode n) =
        true :=
  merge_inserts_at_parent_end fullSchema soleFigureGalleryDoc ⟨2, 2, 2⟩
    [{ caption := "hi" }] (.gallery [.figure {} []]) rfl rfl rfl

/-- C3 (counterexample): with the caret inside the first of two figures of a
gallery, the merge branch inserts at position 3 (the end of that figure's
inline content), while the end of the matched gallery's content is position
6 — the figures are not inserted at the end of the target gallery's
content. -/
theorem merge_insert_misses_gallery_end :
    setAttachment fullSchema twoFigureGalleryDoc ⟨2, 2, 2⟩ [{}] =
        .ok ⟨[TrOp.insert 3 [.figure {} []]], none, true⟩ ∧
      (resolvePos twoFigureGalleryDoc 2).node1End = some 6 ∧
      (3 : Nat) ≠ 6 :=
  ⟨rfl, rfl, by decide⟩

/-- C4 (amended): outside the merge branch the command emits exactly one
step, replacing the range from one position before the selection start to
the selection end by the sequence `[empty paragraph, gallery of the new
figures, empty paragraph]`, and moves the selection to the end of the
inserted range. -/
theorem new_gallery_insertion :
    ∀ (schema : ModelSchema) (doc : List PMNode) (sel : Sel)
      (options : List FigureAttrs) (topNode : PMNode),
      (resolvePos doc sel.anchor).node1 = some topNode →
      isGalleryNode topNode = false →
      ((resolvePos doc (sel.anchor - 2)).node1.map isGalleryNode).getD false =
        false →
      schema.hasFigure = true → schema.hasGallery = true →
      schema.hasParagraph = true →
      setAttachment schema doc sel options =
        .ok ⟨[TrOp.replaceWith (sel.fromPos - 1) sel.toPos
              [.paragraph [], .gallery (options.map mkFigureNode), .paragraph []]],
          some (sel.fromPos - 1 + contentSize
            [.paragraph [], .gallery (options.map mkFigureNode), .paragraph []]),
          true⟩ := by
  intro schema doc sel options topNode h1 hcur hafter hF hG hP
  simp only [setAttachment, h1, buildFigures_full schema options hF, hcur,
    hafter, Bool.or_self, hG, hP]
  simp

theorem new_gallery_insertion_witness :
    setAttachment fullSchema [.paragraph []] ⟨1, 1, 1⟩ [{}] =
      .ok ⟨[TrOp.replaceWith 0 1
            [.paragraph [], .gallery [.figure {} []], .paragraph []]],
        some 8, true⟩ :=
  new_gallery_insertion fullSchema [.paragraph []] ⟨1, 1, 1⟩ [{}]
    (.paragraph []) rfl rfl rfl rfl rfl rfl

/-- C4 (counterexample): with the caret after the `b` of a paragraph `ab`
(selection from = to = 3), the emitted replace step covers the range (2, 3)
— one position before the selection start, deleting the character `b` — not
the selection's own range (3, 3). -/
theorem replace_range_extends_before_selection :
    setAttachment fullSchema abParagraphDoc ⟨3, 3, 3⟩ [{}] =
        .ok ⟨[TrOp.replaceWith 2 3
              [.paragraph [], .gallery [.figure {} []], .paragraph []]],
          some 10, true⟩ ∧
      ((2, 3) : Nat × Nat) ≠ (3, 3) :=
  ⟨rfl, by decide⟩

/-- C5 (amended): the command never returns `false`.  With every required
node type present (and the selection anchor inside a top-level block) it
returns `true`; with the figure node type missing and a non-empty descriptor
list it throws a `TypeError` instead of returning — and since every node
type access precedes the first transaction step, an error outcome carries no
step, leaving the document unmutated. -/
theorem insertion_command_return_contract :
    (∀ (schema : ModelSchema) (doc : List PMNode) (sel : Sel)
        (options : List FigureAttrs) (r : CmdResult),
        setAttachment schema doc sel options = .ok r → r.ret = true) ∧
      (∀ (schema : ModelSchema) (doc : List PMNode) (sel : Sel)
          (options : List FigureAttrs),
          schema.hasFigure = true → schema.hasGallery = true →
          schema.hasParagraph = true →
          ((resolvePos doc sel.anchor).node1).isSome = true →
          ∃ r, setAttachment schema doc sel options = .ok r ∧ r.ret = true) ∧
      (∀ (schema : ModelSchema) (doc : List PMNode) (sel : Sel)
          (options : List FigureAttrs),
          schema.hasFigure = false → options ≠ [] →
          ∃ e, setAttachment schema doc sel options = .error e) := by
  refine ⟨?_, ?_, ?_⟩
  · intro schema doc sel options r h
    rcases hm : (resolvePos doc sel.anchor).node1 with _ | n1
    · simp [setAttachment, hm] at h
    · rcases hb : buildFigures schema options with e | ns
      · simp [setAttachment, hm, hb] at h
      · simp only [setAttachment, hm, hb] at h
        split at h
        · cases h; rfl
        · split at h
          · split at h
            · cases h; rfl
            · simp at h
          · simp at h
  · intro schema doc sel options hF hG hP hsome
    obtain ⟨n1, hm⟩ := Option.isSome_iff_exists.mp hsome
    by_cases hin : (isGalleryNode n1 ||
        ((resolvePos doc (sel.anchor - 2)).node1.map isGalleryNode).getD false) =
          true
    · refine ⟨⟨[TrOp.insert ((resolvePos doc sel.anchor).endPos -
          (if isGalleryNode n1 then 0 else 2)) (options.map mkFigureNode)],
          none, true⟩, ?_, rfl⟩
      simp only [setAttachment, hm, buildFigures_full schema options hF, hin,
        if_true]
    · have hin' := Bool.not_eq_true _ ▸ hin
      refine ⟨⟨[TrOp.replaceWith (sel.fromPos - 1) sel.toPos
            [.paragraph [], .gallery (options.map mkFigureNode), .paragraph []]],
          some (sel.fromPos - 1 + contentSize
            [.paragraph [], .gallery (options.map mkFigureNode), .paragraph []]),
          true⟩, ?_, rfl⟩
      simp only [setAttachment, hm, buildFigures_full schema options hF]
      rw [if_neg hin]
      simp only [hG, hP, if_true]
  · intro schema doc sel options hF hne
    rcases hm : (resolvePos doc sel.anchor).node1 with _ | n1
    · exact ⟨"TypeError: cannot read type of undefined",
        by simp [setAttachment, hm]⟩
    · have hb : buildFigures schema options =
          .error "TypeError: attachment-figure node type missing" := by
        cases options with
        | nil => exact absurd rfl hne
        | cons a as => simp [buildFigures, hF]
      exact ⟨"TypeError: attachment-figure node type missing",
        by simp [setAttachment, hm, hb]⟩

theorem insertion_command_return_contract_witness :
    ((⟨[TrOp.replaceWith 0 1
          [.paragraph [], .gallery [.figure {} []], .paragraph []]],
        some 8, true⟩ : CmdResult).ret = true) ∧
      (∃ r, setAttachment fullSchema [.paragraph []] ⟨1, 1, 1⟩ [{}] =
          .ok r ∧ r.ret = true) ∧
      (∃ e, setAttachment ⟨false, true, true⟩ [.paragraph []] ⟨1, 1, 1⟩ [{}] =
        .error e) :=
  ⟨insertion_command_return_contract.1 fullSchema [.paragraph []] ⟨1, 1, 1⟩ [{}]
      _ rfl,
    insertion_command_return_contract.2.1 fullSchema [.paragraph []] ⟨1, 1, 1⟩
      [{}] rfl rfl rfl rfl,
    insertion_command_return_contract.2.2 ⟨false, true, true⟩ [.paragraph []]
      ⟨1, 1, 1⟩ [{}] rfl (by simp)⟩

/-- C5 (counterexample): with the figure node type missing from the schema
the command throws a `TypeError` — it does not return `false`; and even a
fully equipped schema throws when the selection anchor sits at document
level, so the command does not return `true` for every selection either. -/
theorem missing_schema_throws_not_false :
    setAttachment ⟨false, true, true⟩ [.paragraph []] ⟨1, 1, 1⟩ [{}] =
        .error "TypeError: attachment-figure node type missing" ∧
      returnedFalse
          (setAttachment ⟨false, true, true⟩ [.paragraph []] ⟨1, 1, 1⟩ [{}]) =
        false ∧
      setAttachment fullSchema [.paragraph []] ⟨0, 0, 1⟩ [{}] =
        .error "TypeError: cannot read type of undefined" :=
  ⟨rfl, rfl, rfl⟩

@[simp] theorem lookupTrix_caption (p : TrixAttachmentPayload) :
    lookupTrix p "caption" = some p.caption := rfl
@[simp] theorem lookupTrix_contentType (p : TrixAttachmentPayload) :
    lookupTrix p "contentType" = some p.contentType := rfl
@[simp] theorem lookupTrix_content (p : TrixAttachmentPayload) :
    lookupTrix p "content" = some p.content := rfl
@[simp] theorem lookupTrix_filename (p : TrixAttachmentPayload) :
    lookupTrix p "filename" = some p.filename := rfl
@[simp] theorem lookupTrix_filesize (p : TrixAttachmentPayload) :
    lookupTrix p "filesize" = some p.filesize := rfl
@[simp] theorem lookupTrix_height (p : TrixAttachmentPayload) :
    lookupTrix p "height" = some p.height := rfl
@[simp] theorem lookupTrix_width (p : TrixAttachmentPayload) :
    lookupTrix p "width" = some p.width := rfl
@[simp] theorem lookupTrix_sgid (p : TrixAttachmentPayload) :
    lookupTrix p "sgid" = some p.sgid := rfl
@[simp] theorem lookupTrix_url (p : TrixAttachmentPayload) :
    lookupTrix p "url" = some p.url := rfl
@[simp] theorem lookupTrix_src (p : TrixAttachmentPayload) :
    lookupTrix p "src" = some p.src := rfl
@[simp] theorem lookupTrix_dashed_content_type (p : TrixAttachmentPayload) :
    lookupTrix p "content-type" = none := rfl

/-- C7 (amended): for every descriptor whose `contentType` is non-empty,
carried by a figure whose inline content serializes to the descriptor's
`caption` (the consistency the reconciliation pass maintains in committed
states), parsing the rendered persistence output reconstructs the descriptor
on all nine fields of the round-trip set. -/
theorem round_trip_amended :
    ∀ (d : FigureAttrs) (cs : List PMNode),
      serializeInline cs = d.caption → d.contentType ≠ "" →
      eqOnRoundTripFields d (parseRenderedFigure (renderHTMLFigure d cs)) := by
  intro d cs hcap hct
  unfold eqOnRoundTripFields
  refine ⟨?_, ?_, rfl, rfl, rfl, rfl, rfl, rfl, rfl⟩
  · show d.caption = parseCaption (renderHTMLFigure d cs)
    unfold parseCaption
    rw [show (renderHTMLFigure d cs).figcaptionInnerHTML = serializeInline cs
      from rfl, hcap]
    by_cases hc : d.caption = ""
    · simp [jsOrOpt, applyDefault, hc, findAttribute, renderHTMLFigure]
    · simp [jsOrOpt, applyDefault, hc]
  · show d.contentType = parseContentType (renderHTMLFigure d cs)
    unfold parseContentType
    simp [findAttribute, renderHTMLFigure, jsOrOpt, applyDefault, hct]

/-- Descriptor fixture with every round-trip field non-empty. -/
def roundTripSample : FigureAttrs :=
  { caption := "hello"
    contentType := "image/png"
    fileName := "a.png"
    fileSize := "10"
    width := "3"
    height := "4"
    url := "u"
    src := "s"
    sgid := "g" }

theorem round_trip_amended_witness :
    eqOnRoundTripFields roundTripSample
      (parseRenderedFigure (renderHTMLFigure roundTripSample [.text "hello"])) :=
  round_trip_amended roundTripSample [.text "hello"] (by decide) (by decide)

/-- C7 (counterexample): the default descriptor has an empty `contentType`;
parsing its own rendered output yields `application/octet-stream` for that
field, so `parse(serialize(D)) = D` fails on the claimed field set. -/
theorem round_trip_fails_on_empty_content_type :
    (parseRenderedFigure (renderHTMLFigure {} [])).contentType =
        "application/octet-stream" ∧
      ({} : FigureAttrs).contentType = "" ∧
      ¬ eqOnRoundTripFields {} (parseRenderedFigure (renderHTMLFigure {} [])) :=
  ⟨rfl, rfl, by decide⟩

/-- C8 (amended): when the asynchronous dimension detection completes after
the target figure has left the document — the destroyed node view's `getPos`
yields no position, or no node starts at the recorded position — the
callback dispatches nothing and the document stays unchanged, but not
silently: building the `setNodeMarkup` transaction raises a `RangeError`. -/
theorem dimension_writeback_no_mutation :
    (∀ (doc : List PMNode) (a : FigureAttrs) (w h : String),
        dimensionWriteBack doc none a w h =
          .error "RangeError: position undefined") ∧
      (∀ (doc : List PMNode) (p : Nat) (a : FigureAttrs) (w h : String),
          nodeAtDoc doc p = none →
          dimensionWriteBack doc (some p) a w h =
            .error "RangeError: no node at given position") := by
  refine ⟨fun _ _ _ _ => rfl, fun doc p a w h hn => ?_⟩
  simp [dimensionWriteBack, hn]

theorem dimension_writeback_no_mutation_witness :
    dimensionWriteBack [.paragraph []] (some 5) {} "10" "20" =
      .error "RangeError: no node at given position" :=
  dimension_writeback_no_mutation.2 [.paragraph []] 5 {} "10" "20" rfl

/-- C8 (counterexample): with the target node gone, the callback does not
complete silently without effect — it evaluates to a `RangeError`, not to a
successful no-op on the unchanged document. -/
theorem dimension_writeback_not_silent :
    dimensionWriteBack [.paragraph []] none {} "10" "20" =
        .error "RangeError: position undefined" ∧
      dimensionWriteBack [.paragraph []] none {} "10" "20" ≠
        .ok [.paragraph []] :=
  ⟨rfl, fun h => by simp [dimensionWriteBack] at h⟩

/-- C9 (code bug): for a non-empty fileName with no dot-extension suffix the
regular-expression match is null, the optional chain yields `undefined`, and
the string concatenation coerces it — the figure's class string gains the
malformed class `attachment--undefined` instead of omitting the
extension-derived class (the empty fileName, by contrast, is omitted). -/
theorem unrecognized_extension_yields_undefined_class :
    toExtension "README" = "attachment--undefined" ∧
      (renderHTMLFigure { fileName := "README" } []).className =
        "attachment attachment--file attachment--undefined" ∧
      toExtension "" = "" :=
  ⟨rfl, rfl, rfl⟩
